import Mathlib

/-!
Verification of the parts-tracker lifecycle core (`app_logic.py`, `data_manager.py`).

Records are Python dicts; here each entity is a structure with the fields the
core creates and reads.  An `InstallationRecord`'s `removal_date` key may be
absent, present with value `None`, or present with a date string, so it is
modelled as `Option (Option String)`: `none` = key absent, `some none` = key
present holding `None`, `some (some d)` = key present holding date `d`.
The code's "open record" test is `'removal_date' not in record`, i.e.
`removal_date = none` here.

Mutating operations in the source take a `DataManager`, mutate
`data_manager.data` in place and call `save_data` on success; here they map a
`Document` to a `MutResult` carrying the new document, whether a save was
triggered, and which error branch (identified by its printed message) was
taken, if any.  Date defaulting (`datetime.date.today()`) is environmental,
so operations receive the already-resolved date string.
-/

namespace PartsTracker

structure Turbine where
  turbine_id : Nat
  serial_number : String
  frame_type : String
  location : String
deriving DecidableEq

structure PartMaster where
  part_number : String
  description : String
  manufacturer : String
deriving DecidableEq

structure PartInstance where
  instance_id : Nat
  part_number : String
  serial_number : String
deriving DecidableEq

structure InstallationRecord where
  installation_id : Nat
  instance_id : Nat
  turbine_id : Nat
  installation_date : String
  removal_date : Option (Option String)
deriving DecidableEq

structure MaintenanceLog where
  log_id : Nat
  instance_id : Nat
  description : String
  log_date : String
deriving DecidableEq

/-- The in-memory document `data_manager.data`, with the five collection keys
`app_logic.py` reads and writes: `turbines`, `part_master`, `part_instances`,
`installation_history`, `maintenance_log`. -/
structure Document where
  turbines : List Turbine
  part_master : List PartMaster
  part_instances : List PartInstance
  installation_history : List InstallationRecord
  maintenance_log : List MaintenanceLog
deriving DecidableEq

/-- `_get_next_id(items_list, id_key)`: `1` on the empty list, otherwise
`max(item.get(id_key, 0) for item in items_list) + 1`.  Every record carries
its id field, so the `.get` default never fires and the Python `max` over the
nonempty value list is `foldr max 0` over `Nat`s. -/
def get_next_id (idKey : α → Nat) (items : List α) : Nat :=
  if items.isEmpty then 1
  else ((items.map idKey).foldr max 0) + 1

/-- `get_turbine_by_serial`: first turbine with the given serial number. -/
def get_turbine_by_serial (doc : Document) (serial_number : String) : Option Turbine :=
  doc.turbines.find? (fun t => t.serial_number == serial_number)

/-- `get_part_by_serial`: first part instance with the given serial number. -/
def get_part_by_serial (doc : Document) (serial_number : String) : Option PartInstance :=
  doc.part_instances.find? (fun i => i.serial_number == serial_number)

/-- `'removal_date' not in record`: the record is open. -/
def is_open (r : InstallationRecord) : Bool :=
  r.removal_date.isNone

/-- `add_installation_record`: appends a record with the next id and no
`removal_date` key, and saves.  Returns the updated document and the record. -/
def add_installation_record (doc : Document) (instance_id turbine_id : Nat)
    (installation_date : String) : Document × InstallationRecord :=
  let newRecord : InstallationRecord :=
    { installation_id := get_next_id (fun r => r.installation_id) doc.installation_history,
      instance_id := instance_id,
      turbine_id := turbine_id,
      installation_date := installation_date,
      removal_date := none }
  ({ doc with installation_history := doc.installation_history ++ [newRecord] }, newRecord)

/-- The error branches of `install_part` / `remove_part`, identified by the
message each prints before returning without mutation. -/
inductive PartError where
  | partNotFound
  | turbineNotFound
  | alreadyInstalled
  | noActiveInstallation
deriving DecidableEq

/-- Outcome of a mutating operation: resulting document, whether
`save_data` was called, and the error branch taken, if any. -/
structure MutResult where
  doc : Document
  saved : Bool
  error : Option PartError
deriving DecidableEq

/-- `install_part`: resolve part, resolve turbine, fail if any record for the
instance lacks a `removal_date` key, otherwise append a fresh open record. -/
def install_part (doc : Document) (part_serial_number turbine_serial_number : String)
    (installation_date : String) : MutResult :=
  match get_part_by_serial doc part_serial_number with
  | none => ⟨doc, false, some .partNotFound⟩
  | some part_instance =>
    match get_turbine_by_serial doc turbine_serial_number with
    | none => ⟨doc, false, some .turbineNotFound⟩
    | some turbine =>
      if doc.installation_history.any
          (fun r => r.instance_id == part_instance.instance_id && is_open r) then
        ⟨doc, false, some .alreadyInstalled⟩
      else
        ⟨(add_installation_record doc part_instance.instance_id turbine.turbine_id
            installation_date).1, true, none⟩

/-- The in-place mutation `active_record['removal_date'] = removal_date` on
the first open record for the instance, in insertion order. -/
def close_first_open (instance_id : Nat) (removal_date : String) :
    List InstallationRecord → List InstallationRecord
  | [] => []
  | r :: rs =>
    if r.instance_id == instance_id && is_open r then
      { r with removal_date := some (some removal_date) } :: rs
    else
      r :: close_first_open instance_id removal_date rs

/-- `remove_part`: resolve part, find the first open record for the instance
(linear scan with early exit), set its `removal_date` and save; error branch
if the part or an open record is missing. -/
def remove_part (doc : Document) (part_serial_number : String)
    (removal_date : String) : MutResult :=
  match get_part_by_serial doc part_serial_number with
  | none => ⟨doc, false, some .partNotFound⟩
  | some part_instance =>
    match doc.installation_history.find?
        (fun r => r.instance_id == part_instance.instance_id && is_open r) with
    | none => ⟨doc, false, some .noActiveInstallation⟩
    | some _ =>
      ⟨{ doc with installation_history :=
          close_first_open part_instance.instance_id removal_date doc.installation_history },
        true, none⟩

/-- The dict `get_part_lifecycle` returns on success: exactly the keys
`part_details`, `installation_history`, `maintenance_log` — no part master. -/
structure LifecycleView where
  part_details : PartInstance
  installation_history : List InstallationRecord
  maintenance_log : List MaintenanceLog
deriving DecidableEq

/-- `get_part_lifecycle`: `none` models the `"Part instance not found."`
return; otherwise the instance and its filtered histories, in order. -/
def get_part_lifecycle (doc : Document) (instance_id : Nat) : Option LifecycleView :=
  match doc.part_instances.find? (fun p => p.instance_id == instance_id) with
  | none => none
  | some part_instance =>
    some { part_details := part_instance,
           installation_history :=
             doc.installation_history.filter (fun r => r.instance_id == instance_id),
           maintenance_log :=
             doc.maintenance_log.filter (fun l => l.instance_id == instance_id) }

/-- `get_installed_parts`: part instances whose `instance_id` is in the set of
ids of open records for the turbine.  Set membership of the id comprehension
is the `any` test below. -/
def get_installed_parts (doc : Document) (turbine_id : Nat) : List PartInstance :=
  doc.part_instances.filter (fun inst =>
    doc.installation_history.any (fun r =>
      r.turbine_id == turbine_id && is_open r && r.instance_id == inst.instance_id))

/-- The default store `DataManager.load_data` builds when the file is missing:
four empty collections under these keys (`data_manager.py` lines 28–33). -/
def default_store_data : List (String × List Unit) :=
  [("turbines", []), ("part_masters", []), ("part_instances", []),
   ("installation_records", [])]

/-- The collection keys the core operations in `app_logic.py` subscript for
reading and writing. -/
def core_collection_keys : List String :=
  ["turbines", "part_master", "part_instances", "installation_history",
   "maintenance_log"]

/-- A call in a sequence of core mutations. -/
inductive Op where
  | install (part_serial_number turbine_serial_number installation_date : String)
  | remove (part_serial_number removal_date : String)

def apply_op (doc : Document) : Op → Document
  | .install p t d => (install_part doc p t d).doc
  | .remove p d => (remove_part doc p d).doc

def apply_ops (doc : Document) (ops : List Op) : Document :=
  ops.foldl apply_op doc

/-- Number of open installation records for a given instance id. -/
def open_count (doc : Document) (instance_id : Nat) : Nat :=
  (doc.installation_history.filter
    (fun r => r.instance_id == instance_id && is_open r)).length

/-- `N` successive adds to a collection, each appending a record built from
the id `get_next_id` assigns at that point. -/
def iterate_add (idKey : α → Nat) (mk : Nat → α) (l : List α) : Nat → List α
  | 0 => l
  | n + 1 =>
    iterate_add idKey mk l n ++ [mk (get_next_id idKey (iterate_add idKey mk l n))]

/-! ### Helper lemmas on `get_next_id` -/

lemma le_foldr_max (m : List Nat) : ∀ y ∈ m, y ≤ m.foldr max 0 := by
  induction m with
  | nil => intro y hy; cases hy
  | cons a t ih =>
    intro y hy
    rcases List.mem_cons.mp hy with h | h
    · subst h; exact le_max_left _ _
    · exact le_trans (ih y h) (le_max_right _ _)

lemma foldr_max_mem (m : List Nat) (hm : m ≠ []) : m.foldr max 0 ∈ m := by
  induction m with
  | nil => exact absurd rfl hm
  | cons a t ih =>
    cases t with
    | nil => simp
    | cons b u =>
      rcases le_total ((b :: u).foldr max 0) a with h | h
      · simp only [List.foldr_cons] at *
        rw [max_eq_left h]
        exact List.mem_cons_self _ _
      · simp only [List.foldr_cons] at *
        rw [max_eq_right h]
        exact List.mem_cons_of_mem _ (ih (by simp))

lemma get_next_id_max {α : Type} (idKey : α → Nat) (l : List α) (hl : l ≠ []) :
    ∃ x ∈ l, get_next_id idKey l = idKey x + 1 ∧ ∀ y ∈ l, idKey y ≤ idKey x := by
  have hne : (l.map idKey) ≠ [] := fun h => hl (List.map_eq_nil_iff.mp h)
  have hmem : (l.map idKey).foldr max 0 ∈ l.map idKey := foldr_max_mem _ hne
  rcases List.mem_map.mp hmem with ⟨x, hx, hfx⟩
  refine ⟨x, hx, ?_, ?_⟩
  · unfold get_next_id
    rw [if_neg (by simpa [List.isEmpty_iff] using hl), hfx]
  · intro y hy
    have := le_foldr_max (l.map idKey) (idKey y) (List.mem_map_of_mem idKey hy)
    rw [← hfx] at this
    exact this

lemma get_next_id_gt {α : Type} (idKey : α → Nat) (l : List α) (x : α) (hx : x ∈ l) :
    idKey x < get_next_id idKey l := by
  rcases get_next_id_max idKey l (List.ne_nil_of_mem hx) with ⟨m, _, heq, hub⟩
  rw [heq]
  exact Nat.lt_succ_of_le (hub x hx)

lemma iterate_add_length {α : Type} (idKey : α → Nat) (mk : Nat → α) (l : List α) :
    ∀ N, (iterate_add idKey mk l N).length = l.length + N := by
  intro N
  induction N with
  | zero => rfl
  | succ n ih => simp [iterate_add, ih]; omega

lemma iterate_add_pairwise {α : Type} (idKey : α → Nat) (mk : Nat → α)
    (hmk : ∀ n, idKey (mk n) = n) (l : List α) :
    ∀ N, List.Pairwise (· < ·) (((iterate_add idKey mk l N).drop l.length).map idKey) := by
  intro N
  induction N with
  | zero => simp [iterate_add]
  | succ n ih =>
    have hlen : l.length ≤ (iterate_add idKey mk l n).length := by
      rw [iterate_add_length]; omega
    rw [iterate_add, List.drop_append_of_le_length hlen, List.map_append]
    rw [List.pairwise_append]
    refine ⟨ih, List.pairwise_singleton _ _, ?_⟩
    intro a ha b hb
    rcases List.mem_map.mp ha with ⟨z, hz, hza⟩
    have hzmem : z ∈ iterate_add idKey mk l n := List.drop_subset _ _ hz
    rcases List.mem_map.mp hb with ⟨w, hw, hwb⟩
    have hw1 : w = mk (get_next_id idKey (iterate_add idKey mk l n)) := by
      simpa using hw
    subst hw1
    rw [← hza, ← hwb, hmk]
    exact get_next_id_gt idKey _ z hzmem

/-! ### Helper lemmas on the core operations -/

lemma install_part_collections (doc : Document) (p t d : String) :
    (install_part doc p t d).doc.turbines = doc.turbines
    ∧ (install_part doc p t d).doc.part_instances = doc.part_instances
    ∧ (install_part doc p t d).doc.part_master = doc.part_master
    ∧ (install_part doc p t d).doc.maintenance_log = doc.maintenance_log := by
  unfold install_part
  cases get_part_by_serial doc p with
  | none => simp
  | some pi =>
    cases get_turbine_by_serial doc t with
    | none => simp
    | some tb =>
      by_cases hg : (doc.installation_history.any
          fun r => r.instance_id == pi.instance_id && is_open r) = true
      · simp [hg]
      · simp [hg, add_installation_record]

lemma remove_part_collections (doc : Document) (p rd : String) :
    (remove_part doc p rd).doc.turbines = doc.turbines
    ∧ (remove_part doc p rd).doc.part_instances = doc.part_instances
    ∧ (remove_part doc p rd).doc.part_master = doc.part_master
    ∧ (remove_part doc p rd).doc.maintenance_log = doc.maintenance_log := by
  unfold remove_part
  cases get_part_by_serial doc p with
  | none => simp
  | some pi =>
    cases hf : doc.installation_history.find?
        (fun r => r.instance_id == pi.instance_id && is_open r) with
    | none => simp [hf]
    | some r => simp [hf]

lemma install_part_success (doc : Document) (p t d : String) (pi : PartInstance)
    (tb : Turbine) (hp : get_part_by_serial doc p = some pi)
    (ht : get_turbine_by_serial doc t = some tb)
    (hno : ∀ r ∈ doc.installation_history,
      r.instance_id = pi.instance_id → is_open r = false) :
    install_part doc p t d =
      ⟨{ doc with installation_history := doc.installation_history ++
          [{ installation_id :=
               get_next_id (fun r => r.installation_id) doc.installation_history,
             instance_id := pi.instance_id,
             turbine_id := tb.turbine_id,
             installation_date := d,
             removal_date := none }] }, true, none⟩ := by
  have hany : (doc.installation_history.any
      fun r => r.instance_id == pi.instance_id && is_open r) = false := by
    rw [List.any_eq_false]
    intro r hr
    simp only [Bool.and_eq_true, beq_iff_eq, not_and]
    intro hid
    rw [hno r hr hid]
    simp
  unfold install_part
  rw [hp, ht]
  simp [hany, add_installation_record]

lemma install_part_blocked (doc : Document) (p t d : String) (pi : PartInstance)
    (tb : Turbine) (hp : get_part_by_serial doc p = some pi)
    (ht : get_turbine_by_serial doc t = some tb)
    (hopen : ∃ r ∈ doc.installation_history,
      r.instance_id = pi.instance_id ∧ is_open r = true) :
    install_part doc p t d = ⟨doc, false, some .alreadyInstalled⟩ := by
  have hany : (doc.installation_history.any
      fun r => r.instance_id == pi.instance_id && is_open r) = true := by
    rw [List.any_eq_true]
    rcases hopen with ⟨r, hr, hid, hor⟩
    exact ⟨r, hr, by simp [hid, hor]⟩
  unfold install_part
  rw [hp, ht]
  simp [hany]

lemma close_first_open_of_none (j : Nat) (rd : String) :
    ∀ l : List InstallationRecord,
      (∀ r ∈ l, r.instance_id = j → is_open r = false) →
      close_first_open j rd l = l := by
  intro l
  induction l with
  | nil => intro _; rfl
  | cons r rs ih =>
    intro h
    unfold close_first_open
    have hr : (r.instance_id == j && is_open r) = false := by
      by_cases hid : r.instance_id = j
      · rw [h r (List.mem_cons_self _ _) hid]; simp
      · simp [hid]
    rw [hr]
    simp only [Bool.false_eq_true, if_false]
    rw [ih (fun x hx => h x (List.mem_cons_of_mem _ hx))]

lemma close_first_open_spec (j : Nat) (rd : String) :
    ∀ l : List InstallationRecord,
      (∃ r ∈ l, r.instance_id = j ∧ is_open r = true) →
      ∃ l₁ r l₂, l = l₁ ++ r :: l₂
        ∧ (∀ x ∈ l₁, ¬(x.instance_id = j ∧ is_open x = true))
        ∧ r.instance_id = j ∧ is_open r = true
        ∧ close_first_open j rd l =
            l₁ ++ { r with removal_date := some (some rd) } :: l₂ := by
  intro l
  induction l with
  | nil => rintro ⟨r, hr, _⟩; cases hr
  | cons a rs ih =>
    intro hex
    by_cases ha : a.instance_id = j ∧ is_open a = true
    · refine ⟨[], a, rs, by simp, by simp, ha.1, ha.2, ?_⟩
      unfold close_first_open
      rw [if_pos (by simp [ha.1, ha.2])]
      rfl
    · have hex' : ∃ r ∈ rs, r.instance_id = j ∧ is_open r = true := by
        rcases hex with ⟨r, hr, hprop⟩
        rcases List.mem_cons.mp hr with h | h
        · exact absurd (h ▸ hprop) ha
        · exact ⟨r, h, hprop⟩
      rcases ih hex' with ⟨l₁, r, l₂, heq, hl₁, hid, hor, hclose⟩
      refine ⟨a :: l₁, r, l₂, by rw [heq]; rfl, ?_, hid, hor, ?_⟩
      · intro x hx
        rcases List.mem_cons.mp hx with h | h
        · exact h ▸ ha
        · exact hl₁ x h
      · unfold close_first_open
        have hcond : (a.instance_id == j && is_open a) = false := by
          by_cases hid' : a.instance_id = j
          · have : is_open a = false := by
              by_cases ho : is_open a = true
              · exact absurd ⟨hid', ho⟩ ha
              · exact Bool.eq_false_iff.mpr ho
            rw [this]; simp
          · simp [hid']
        rw [hcond]
        simp only [Bool.false_eq_true, if_false]
        rw [hclose]
        rfl

lemma close_first_open_count_le (iid j : Nat) (rd : String) :
    ∀ l : List InstallationRecord,
      ((close_first_open j rd l).filter
        (fun r => r.instance_id == iid && is_open r)).length
      ≤ (l.filter (fun r => r.instance_id == iid && is_open r)).length := by
  intro l
  induction l with
  | nil => exact le_refl _
  | cons a rs ih =>
    unfold close_first_open
    by_cases hcond : (a.instance_id == j && is_open a) = true
    · rw [if_pos hcond]
      have hclosed : (({ a with removal_date := some (some rd) } :
          InstallationRecord).instance_id == iid
          && is_open { a with removal_date := some (some rd) }) = false := by
        simp [is_open]
      rw [List.filter_cons, List.filter_cons, hclosed]
      simp only [Bool.false_eq_true, if_false]
      by_cases ha : (a.instance_id == iid && is_open a) = true
      · rw [if_pos ha]; simp
      · rw [if_neg ha]
    · rw [if_neg hcond]
      rw [List.filter_cons, List.filter_cons]
      by_cases ha : (a.instance_id == iid && is_open a) = true
      · rw [if_pos ha, if_pos ha]; simpa using ih
      · rw [if_neg ha, if_neg ha]; exact ih

lemma mem_get_installed_parts {doc : Document} {tid : Nat} {inst : PartInstance} :
    inst ∈ get_installed_parts doc tid ↔
      inst ∈ doc.part_instances ∧ ∃ r ∈ doc.installation_history,
        r.turbine_id = tid ∧ is_open r = true ∧ r.instance_id = inst.instance_id := by
  unfold get_installed_parts
  rw [List.mem_filter, List.any_eq_true]
  constructor
  · rintro ⟨hmem, r, hr, hcond⟩
    simp only [Bool.and_eq_true, beq_iff_eq] at hcond
    exact ⟨hmem, r, hr, hcond.1.1, hcond.1.2, hcond.2⟩
  · rintro ⟨hmem, r, hr, h1, h2, h3⟩
    exact ⟨hmem, r, hr, by simp [h1, h2, h3]⟩

lemma is_open_eq_false {r : InstallationRecord} (h : r.removal_date ≠ none) :
    is_open r = false := by
  unfold is_open
  cases hr : r.removal_date with
  | none => exact absurd hr h
  | some v => rfl

lemma get_part_by_serial_mem {doc : Document} {psn : String} {pi : PartInstance}
    (h : get_part_by_serial doc psn = some pi) : pi ∈ doc.part_instances := by
  unfold get_part_by_serial at h
  exact List.mem_of_find?_eq_some h

lemma find_open_none {l : List InstallationRecord} {j : Nat}
    (h : ∀ r ∈ l, r.instance_id = j → is_open r = false) :
    l.find? (fun r => r.instance_id == j && is_open r) = none := by
  rw [List.find?_eq_none]
  intro r hr
  simp only [Bool.and_eq_true, beq_iff_eq, not_and]
  intro hid
  rw [h r hr hid]
  simp

lemma find_open_isSome {l : List InstallationRecord} {j : Nat}
    (h : ∃ r ∈ l, r.instance_id = j ∧ is_open r = true) :
    (l.find? (fun r => r.instance_id == j && is_open r)).isSome = true := by
  rw [List.find?_isSome]
  rcases h with ⟨r, hr, h1, h2⟩
  exact ⟨r, hr, by simp [h1, h2]⟩

lemma close_first_open_append_last (j : Nat) (rd : String)
    (l : List InstallationRecord) (r : InstallationRecord)
    (hl : ∀ x ∈ l, x.instance_id = j → is_open x = false)
    (hr : r.instance_id = j) (hro : is_open r = true) :
    close_first_open j rd (l ++ [r]) = l ++ [{ r with removal_date := some (some rd) }] := by
  induction l with
  | nil =>
    simp only [List.nil_append]
    unfold close_first_open
    rw [if_pos (by simp [hr, hro])]
  | cons a t ih =>
    have ha : (a.instance_id == j && is_open a) = false := by
      by_cases hid : a.instance_id = j
      · rw [hl a (List.mem_cons_self _ _) hid]; simp
      · simp [hid]
    simp only [List.cons_append]
    unfold close_first_open
    rw [ha]
    simp only [Bool.false_eq_true, if_false]
    rw [ih (fun x hx hid => hl x (List.mem_cons_of_mem _ hx) hid)]

/-! ### Concrete documents used in counterexamples and witnesses -/

def examplePartInstance : PartInstance := ⟨1, "PN-1001", "PI-SN-001"⟩

def exampleMaster : PartMaster := ⟨"PN-1001", "Main Bearing", ""⟩

def exampleRecordOpen : InstallationRecord := ⟨1, 1, 1, "2024-01-01", none⟩

def exampleLog : MaintenanceLog := ⟨1, 1, "Initial inspection", "2024-01-02"⟩

def docWithMaster : Document :=
  ⟨[], [exampleMaster], [examplePartInstance], [exampleRecordOpen], [exampleLog]⟩

def docNoMaster : Document :=
  ⟨[], [], [examplePartInstance], [exampleRecordOpen], [exampleLog]⟩

/-! ### Claim C3 -/

/-- C3: when the part serial number resolves to no instance, or the resolved
instance has no installation record with `removal_date` absent, `remove_part`
takes a typed error branch (`partNotFound` or `noActiveInstallation`), leaves
every collection of the document unchanged, and triggers no save. -/
theorem remove_requires_active_installation (doc : Document) (psn rd : String)
    (h : ∀ pi, get_part_by_serial doc psn = some pi →
      ∀ r ∈ doc.installation_history, r.instance_id = pi.instance_id → is_open r = false) :
    (remove_part doc psn rd).doc = doc
    ∧ (remove_part doc psn rd).saved = false
    ∧ ((remove_part doc psn rd).error = some .partNotFound
       ∨ (remove_part doc psn rd).error = some .noActiveInstallation) := by
  cases hp : get_part_by_serial doc psn with
  | none => simp [remove_part, hp]
  | some pi =>
    have hf : doc.installation_history.find?
        (fun r => r.instance_id == pi.instance_id && is_open r) = none :=
      find_open_none (h pi hp)
    simp [remove_part, hp, hf]

def closed_record_doc : Document :=
  ⟨[⟨1, "T-SN-101", "GE 1.5sle", ""⟩], [], [examplePartInstance],
   [⟨1, 1, 1, "2024-01-01", some (some "2024-03-01")⟩], []⟩

theorem remove_requires_active_installation_witness :
    (remove_part closed_record_doc "PI-SN-001" "2024-04-01").doc = closed_record_doc
    ∧ (remove_part closed_record_doc "PI-SN-001" "2024-04-01").saved = false
    ∧ ((remove_part closed_record_doc "PI-SN-001" "2024-04-01").error = some .partNotFound
       ∨ (remove_part closed_record_doc "PI-SN-001" "2024-04-01").error
           = some .noActiveInstallation) :=
  remove_requires_active_installation closed_record_doc "PI-SN-001" "2024-04-01"
    (by
      intro pi hpi r hr hid
      have hpe : some examplePartInstance = some pi := by
        rw [← hpi]; decide
      cases hpe
      have hre : r = ⟨1, 1, 1, "2024-01-01", some (some "2024-03-01")⟩ := by
        simpa [closed_record_doc] using hr
      cases hre
      rfl)

/-! ### Claim C4 -/

/-- C4: when two or more open installation records exist for the resolved
instance, `remove_part` sets `removal_date` on exactly the first open record
in insertion order (the prefix before it holds no open record for the
instance), leaves the prefix, suffix, and every other collection unchanged,
and deletes no record. -/
theorem remove_closes_first_open_only (doc : Document) (psn rd : String)
    (pi : PartInstance) (hpi : get_part_by_serial doc psn = some pi)
    (h2 : 2 ≤ (doc.installation_history.filter
      (fun r => r.instance_id == pi.instance_id && is_open r)).length) :
    ∃ l₁ r l₂, doc.installation_history = l₁ ++ r :: l₂
      ∧ (∀ x ∈ l₁, ¬(x.instance_id = pi.instance_id ∧ is_open x = true))
      ∧ r.instance_id = pi.instance_id ∧ is_open r = true
      ∧ (remove_part doc psn rd).doc.installation_history =
          l₁ ++ { r with removal_date := some (some rd) } :: l₂
      ∧ (remove_part doc psn rd).doc.turbines = doc.turbines
      ∧ (remove_part doc psn rd).doc.part_master = doc.part_master
      ∧ (remove_part doc psn rd).doc.part_instances = doc.part_instances
      ∧ (remove_part doc psn rd).doc.maintenance_log = doc.maintenance_log
      ∧ (remove_part doc psn rd).error = none := by
  have hex : ∃ r ∈ doc.installation_history,
      r.instance_id = pi.instance_id ∧ is_open r = true := by
    have hne : doc.installation_history.filter
        (fun r => r.instance_id == pi.instance_id && is_open r) ≠ [] := by
      intro hnil
      rw [hnil] at h2
      simp at h2
    rcases List.exists_mem_of_ne_nil _ hne with ⟨r, hr⟩
    rcases List.mem_filter.mp hr with ⟨hmem, hcond⟩
    simp only [Bool.and_eq_true, beq_iff_eq] at hcond
    exact ⟨r, hmem, hcond.1, hcond.2⟩
  rcases close_first_open_spec pi.instance_id rd doc.installation_history hex with
    ⟨l₁, r, l₂, heq, hl₁, hid, hor, hclose⟩
  have hres : remove_part doc psn rd =
      ⟨{ doc with installation_history :=
          close_first_open pi.instance_id rd doc.installation_history }, true, none⟩ := by
    unfold remove_part
    rw [hpi]
    cases hf : doc.installation_history.find?
        (fun r => r.instance_id == pi.instance_id && is_open r) with
    | none =>
      have := find_open_isSome hex
      rw [hf] at this
      cases this
    | some a => simp [hf]
  refine ⟨l₁, r, l₂, heq, hl₁, hid, hor, ?_, ?_, ?_, ?_, ?_, ?_⟩ <;> rw [hres]
  exact hclose

def corrupt_doc : Document :=
  ⟨[⟨1, "T-SN-101", "GE 1.5sle", ""⟩], [], [examplePartInstance],
   [⟨1, 1, 1, "2024-01-01", none⟩, ⟨2, 1, 2, "2024-02-01", none⟩], []⟩

theorem remove_closes_first_open_only_witness :
    ∃ l₁ r l₂, corrupt_doc.installation_history = l₁ ++ r :: l₂
      ∧ (∀ x ∈ l₁, ¬(x.instance_id = examplePartInstance.instance_id ∧ is_open x = true))
      ∧ r.instance_id = examplePartInstance.instance_id ∧ is_open r = true
      ∧ (remove_part corrupt_doc "PI-SN-001" "2024-03-01").doc.installation_history =
          l₁ ++ { r with removal_date := some (some "2024-03-01") } :: l₂
      ∧ (remove_part corrupt_doc "PI-SN-001" "2024-03-01").doc.turbines = corrupt_doc.turbines
      ∧ (remove_part corrupt_doc "PI-SN-001" "2024-03-01").doc.part_master
          = corrupt_doc.part_master
      ∧ (remove_part corrupt_doc "PI-SN-001" "2024-03-01").doc.part_instances
          = corrupt_doc.part_instances
      ∧ (remove_part corrupt_doc "PI-SN-001" "2024-03-01").doc.maintenance_log
          = corrupt_doc.maintenance_log
      ∧ (remove_part corrupt_doc "PI-SN-001" "2024-03-01").error = none :=
  remove_closes_first_open_only corrupt_doc "PI-SN-001" "2024-03-01"
    examplePartInstance (by decide) (by decide)

/-! ### Claim C5 -/

/-- C5: `_get_next_id` returns 1 on an empty collection and (max existing id)
+ 1 otherwise, so across any sequence of N adds to one collection the Nth
assigned ID strictly exceeds every previously assigned ID. -/
theorem id_generation_invariant {α : Type} (idKey : α → Nat) :
    get_next_id idKey ([] : List α) = 1
    ∧ (∀ l : List α, l ≠ [] →
        ∃ x ∈ l, get_next_id idKey l = idKey x + 1 ∧ ∀ y ∈ l, idKey y ≤ idKey x)
    ∧ (∀ mk : Nat → α, (∀ n, idKey (mk n) = n) → ∀ (l : List α) (N : Nat),
        List.Pairwise (· < ·) (((iterate_add idKey mk l N).drop l.length).map idKey)) :=
  ⟨rfl, get_next_id_max idKey, fun mk hmk l N => iterate_add_pairwise idKey mk hmk l N⟩

theorem id_generation_invariant_witness :
    get_next_id (fun n : Nat => n) ([] : List Nat) = 1
    ∧ (∃ x ∈ [5, 2], get_next_id (fun n : Nat => n) [5, 2] = x + 1 ∧ ∀ y ∈ [5, 2], y ≤ x)
    ∧ List.Pairwise (· < ·)
        (((iterate_add (fun n : Nat => n) (fun n => n) [7] 3).drop 1).map (fun n : Nat => n)) :=
  ⟨(id_generation_invariant (fun n : Nat => n)).1,
   (id_generation_invariant (fun n : Nat => n)).2.1 [5, 2] (by decide),
   by
     have h := (id_generation_invariant (fun n : Nat => n)).2.2 (fun n => n)
       (fun n => rfl) [7] 3
     simpa using h⟩

def fresh_doc : Document :=
  ⟨[⟨1, "T-SN-101", "GE 1.5sle", "Wind Farm Alpha"⟩], [exampleMaster],
   [examplePartInstance], [], []⟩

/-! ### Claim C2 -/

/-- C2: with part and turbine resolved, any open record for the instance —
whichever turbine it references — makes `install_part` fail on the
`alreadyInstalled` branch without mutation; and from a state with no record
for the instance, installing twice in a row with no intervening remove
succeeds once, fails the second time, and leaves exactly one record for the
instance. -/
theorem install_blocks_reinstall (doc : Document) (psn tsn d d2 : String)
    (pi : PartInstance) (tb : Turbine)
    (hpi : get_part_by_serial doc psn = some pi)
    (htb : get_turbine_by_serial doc tsn = some tb) :
    ((∃ r ∈ doc.installation_history, r.instance_id = pi.instance_id ∧ is_open r = true) →
      install_part doc psn tsn d = ⟨doc, false, some .alreadyInstalled⟩)
    ∧ (doc.installation_history.filter (fun r => r.instance_id == pi.instance_id) = [] →
        (install_part doc psn tsn d).error = none
        ∧ install_part (install_part doc psn tsn d).doc psn tsn d2 =
            ⟨(install_part doc psn tsn d).doc, false, some .alreadyInstalled⟩
        ∧ ((install_part doc psn tsn d).doc.installation_history.filter
            (fun r => r.instance_id == pi.instance_id)).length = 1) := by
  constructor
  · exact install_part_blocked doc psn tsn d pi tb hpi htb
  · intro hempty
    have hnone : ∀ r ∈ doc.installation_history, r.instance_id ≠ pi.instance_id := by
      intro r hr
      have := List.filter_eq_nil_iff.mp hempty r hr
      simpa using this
    have hno : ∀ r ∈ doc.installation_history,
        r.instance_id = pi.instance_id → is_open r = false :=
      fun r hr hid => absurd hid (hnone r hr)
    have hsucc := install_part_success doc psn tsn d pi tb hpi htb hno
    refine ⟨by rw [hsucc], ?_, ?_⟩
    · have hpi1 : get_part_by_serial (install_part doc psn tsn d).doc psn = some pi := by
        rw [hsucc]; exact hpi
      have htb1 : get_turbine_by_serial (install_part doc psn tsn d).doc tsn = some tb := by
        rw [hsucc]; exact htb
      refine install_part_blocked _ psn tsn d2 pi tb hpi1 htb1 ?_
      rw [hsucc]
      refine ⟨({ installation_id :=
                   get_next_id (fun r => r.installation_id) doc.installation_history,
                 instance_id := pi.instance_id, turbine_id := tb.turbine_id,
                 installation_date := d, removal_date := none } : InstallationRecord),
              ?_, rfl, rfl⟩
      exact List.mem_append_right _ (by simp)
    · rw [hsucc]
      show ((doc.installation_history ++
          [({ installation_id :=
                get_next_id (fun r => r.installation_id) doc.installation_history,
              instance_id := pi.instance_id, turbine_id := tb.turbine_id,
              installation_date := d, removal_date := none } : InstallationRecord)]).filter
          (fun r => r.instance_id == pi.instance_id)).length = 1
      rw [List.filter_append, hempty]
      simp

theorem install_blocks_reinstall_witness :
    (install_part fresh_doc "PI-SN-001" "T-SN-101" "2024-01-01").error = none
    ∧ install_part (install_part fresh_doc "PI-SN-001" "T-SN-101" "2024-01-01").doc
        "PI-SN-001" "T-SN-101" "2024-03-01" =
        ⟨(install_part fresh_doc "PI-SN-001" "T-SN-101" "2024-01-01").doc, false,
          some .alreadyInstalled⟩
    ∧ ((install_part fresh_doc "PI-SN-001" "T-SN-101" "2024-01-01").doc.installation_history.filter
        (fun r => r.instance_id == examplePartInstance.instance_id)).length = 1 :=
  (install_blocks_reinstall fresh_doc "PI-SN-001" "T-SN-101" "2024-01-01" "2024-03-01"
    examplePartInstance ⟨1, "T-SN-101", "GE 1.5sle", "Wind Farm Alpha"⟩
    (by decide) (by decide)).2 (by decide)

/-! ### Claim C6 -/

lemma install_then_remove_scenario (doc : Document) (psn tsn d rd : String)
    (pi : PartInstance) (tb : Turbine)
    (hpi : get_part_by_serial doc psn = some pi)
    (htb : get_turbine_by_serial doc tsn = some tb)
    (hno : ∀ r ∈ doc.installation_history,
      r.instance_id = pi.instance_id → is_open r = false) :
    (install_part doc psn tsn d).error = none
    ∧ pi ∈ get_installed_parts (install_part doc psn tsn d).doc tb.turbine_id
    ∧ pi ∉ get_installed_parts
        (remove_part (install_part doc psn tsn d).doc psn rd).doc tb.turbine_id := by
  have hsucc := install_part_success doc psn tsn d pi tb hpi htb hno
  set R : InstallationRecord :=
    { installation_id := get_next_id (fun r => r.installation_id) doc.installation_history,
      instance_id := pi.instance_id, turbine_id := tb.turbine_id,
      installation_date := d, removal_date := none } with hR
  refine ⟨by rw [hsucc], ?_, ?_⟩
  · rw [hsucc]
    exact mem_get_installed_parts.mpr
      ⟨get_part_by_serial_mem hpi, R, List.mem_append_right _ (by simp), rfl, rfl, rfl⟩
  · rw [hsucc]
    set D1 : Document := { doc with installation_history := doc.installation_history ++ [R] }
      with hD1
    have hpi1 : get_part_by_serial D1 psn = some pi := hpi
    have hexD1 : ∃ r ∈ D1.installation_history,
        r.instance_id = pi.instance_id ∧ is_open r = true :=
      ⟨R, by simp [hD1], rfl, rfl⟩
    have happ : close_first_open pi.instance_id rd D1.installation_history =
        doc.installation_history ++ [{ R with removal_date := some (some rd) }] := by
      have hh : D1.installation_history = doc.installation_history ++ [R] := rfl
      rw [hh]
      exact close_first_open_append_last pi.instance_id rd doc.installation_history R hno rfl rfl
    have hrem : remove_part D1 psn rd =
        ⟨{ D1 with installation_history :=
            doc.installation_history ++ [{ R with removal_date := some (some rd) }] },
          true, none⟩ := by
      unfold remove_part
      rw [hpi1]
      cases hf : D1.installation_history.find?
          (fun r => r.instance_id == pi.instance_id && is_open r) with
      | none =>
        have := find_open_isSome hexD1
        rw [hf] at this
        cases this
      | some a => simp [hf, happ]
    rw [hrem]
    intro hmem
    rcases mem_get_installed_parts.mp hmem with ⟨hmem1, r, hr, hrt, hro, hrid⟩
    rcases List.mem_append.mp hr with h | h
    · have := hno r h hrid
      rw [this] at hro
      cases hro
    · have hrc : r = { R with removal_date := some (some rd) } := by simpa using h
      rw [hrc] at hro
      simp [is_open] at hro

/-- C6: `get_installed_parts doc tid` contains exactly the part instances in
the document having at least one open installation record referencing `tid`
(instances whose only records for the turbine are closed are excluded); and
immediately after a successful `install_part(P, T)` the result for `T`
contains `P`, while after the subsequent `remove_part(P)` it does not. -/
theorem installed_parts_consistency (doc : Document) (tid : Nat) :
    (∀ inst, inst ∈ get_installed_parts doc tid ↔
      inst ∈ doc.part_instances ∧ ∃ r ∈ doc.installation_history,
        r.turbine_id = tid ∧ is_open r = true ∧ r.instance_id = inst.instance_id)
    ∧ (∀ psn tsn d rd pi tb, get_part_by_serial doc psn = some pi →
        get_turbine_by_serial doc tsn = some tb → tb.turbine_id = tid →
        (∀ r ∈ doc.installation_history,
          r.instance_id = pi.instance_id → is_open r = false) →
        (install_part doc psn tsn d).error = none
        ∧ pi ∈ get_installed_parts (install_part doc psn tsn d).doc tid
        ∧ pi ∉ get_installed_parts
            (remove_part (install_part doc psn tsn d).doc psn rd).doc tid) := by
  refine ⟨fun inst => mem_get_installed_parts, ?_⟩
  intro psn tsn d rd pi tb hpi htb htid hno
  subst htid
  exact install_then_remove_scenario doc psn tsn d rd pi tb hpi htb hno

theorem installed_parts_consistency_witness :
    (install_part fresh_doc "PI-SN-001" "T-SN-101" "2024-01-01").error = none
    ∧ examplePartInstance ∈
        get_installed_parts (install_part fresh_doc "PI-SN-001" "T-SN-101" "2024-01-01").doc 1
    ∧ examplePartInstance ∉
        get_installed_parts
          (remove_part (install_part fresh_doc "PI-SN-001" "T-SN-101" "2024-01-01").doc
            "PI-SN-001" "2024-02-01").doc 1 :=
  (installed_parts_consistency fresh_doc 1).2 "PI-SN-001" "T-SN-101" "2024-01-01" "2024-02-01"
    examplePartInstance ⟨1, "T-SN-101", "GE 1.5sle", "Wind Farm Alpha"⟩
    (by decide) (by decide) (by decide) (by decide)

/-! ### Claim C7 -/

/-- C7: the lifecycle view `get_part_lifecycle` returns is identical whether
or not the instance's part master is resolvable in the document, so the
returned value contains no part master, contradicting the claim (and the
in-repo caller `gui_views.py`, which reads `lifecycle['part_master']`). -/
theorem lifecycle_omits_part_master :
    get_part_lifecycle docWithMaster 1 = get_part_lifecycle docNoMaster 1
    ∧ (docWithMaster.part_master.find?
        (fun m => m.part_number == examplePartInstance.part_number)).isSome = true
    ∧ (docNoMaster.part_master.find?
        (fun m => m.part_number == examplePartInstance.part_number)).isSome = false
    ∧ (get_part_lifecycle docWithMaster 1).isSome = true := by
  decide

/-! ### Claim C8 -/

/-- C8: the default store `load_data` creates holds only four collections,
and its keys (`part_masters`, `installation_records`) do not include the keys
the core reads and writes (`part_master`, `installation_history`,
`maintenance_log`), contradicting the claimed five-collection shape. -/
theorem load_data_default_shape_mismatch :
    (default_store_data.map Prod.fst).length = 4
    ∧ "part_master" ∉ default_store_data.map Prod.fst
    ∧ "installation_history" ∉ default_store_data.map Prod.fst
    ∧ "maintenance_log" ∉ default_store_data.map Prod.fst
    ∧ core_collection_keys.length = 5
    ∧ ∃ k ∈ core_collection_keys, k ∉ default_store_data.map Prod.fst := by
  decide

/-! ### Claim C10 -/

def duplicated_instances_doc : Document :=
  ⟨[⟨1, "T-SN-101", "GE 1.5sle", ""⟩], [], [examplePartInstance, examplePartInstance],
   [exampleRecordOpen], []⟩

/-- C10 counterexample: when the `part_instances` collection itself contains
a duplicated entry, `get_installed_parts` returns that instance twice, so the
returned sequence does not contain each part instance at most once. -/
theorem installed_parts_duplicates_counterexample :
    get_installed_parts duplicated_instances_doc 1 = [examplePartInstance, examplePartInstance]
    ∧ ¬ (get_installed_parts duplicated_instances_doc 1).Nodup := by
  decide

/-- C10 (amended): the result of `get_installed_parts` is a sublist of the
`part_instances` collection (hence in its insertion order, not installation
order), and when `part_instances` has no duplicate entries each part instance
appears at most once, no matter how many open records reference it. -/
theorem installed_parts_sublist_nodup (doc : Document) (tid : Nat) :
    (get_installed_parts doc tid).Sublist doc.part_instances
    ∧ (doc.part_instances.Nodup → (get_installed_parts doc tid).Nodup) :=
  ⟨List.filter_sublist _, fun h => h.filter _⟩

def multi_open_doc : Document :=
  ⟨[⟨1, "T-SN-101", "GE 1.5sle", ""⟩], [], [examplePartInstance],
   [⟨1, 1, 1, "2024-01-01", none⟩, ⟨2, 1, 1, "2024-02-01", none⟩], []⟩

theorem installed_parts_sublist_nodup_witness :
    (get_installed_parts multi_open_doc 1).Sublist multi_open_doc.part_instances
    ∧ (get_installed_parts multi_open_doc 1).Nodup :=
  ⟨(installed_parts_sublist_nodup multi_open_doc 1).1,
   (installed_parts_sublist_nodup multi_open_doc 1).2 (by decide)⟩

/-! ### Claim C9 -/

/-- C9: the core operations treat a record as open exactly when the
`removal_date` key is absent.  In a document where every record for the
resolved instance has the key present (in particular one present with value
`None`), such records do not block `install_part`, are never selected by
`remove_part` as the active record, and do not make the instance appear in
`get_installed_parts`. -/
theorem present_null_removal_date_treated_closed (doc : Document)
    (psn tsn d rd : String) (tid : Nat) (pi : PartInstance)
    (hpi : get_part_by_serial doc psn = some pi)
    (_hnull : ∃ r ∈ doc.installation_history,
      r.instance_id = pi.instance_id ∧ r.removal_date = some none)
    (hall : ∀ r ∈ doc.installation_history,
      r.instance_id = pi.instance_id → r.removal_date ≠ none) :
    (∀ tb, get_turbine_by_serial doc tsn = some tb →
      (install_part doc psn tsn d).error = none
      ∧ (install_part doc psn tsn d).saved = true)
    ∧ remove_part doc psn rd = ⟨doc, false, some .noActiveInstallation⟩
    ∧ (∀ inst ∈ get_installed_parts doc tid, inst.instance_id ≠ pi.instance_id) := by
  have hno : ∀ r ∈ doc.installation_history,
      r.instance_id = pi.instance_id → is_open r = false :=
    fun r hr hid => is_open_eq_false (hall r hr hid)
  refine ⟨?_, ?_, ?_⟩
  · intro tb htb
    have hsucc := install_part_success doc psn tsn d pi tb hpi htb hno
    rw [hsucc]
    exact ⟨rfl, rfl⟩
  · have hf := find_open_none hno
    simp [remove_part, hpi, hf]
  · intro inst hmem hid
    rcases mem_get_installed_parts.mp hmem with ⟨_, r, hr, _, hro, hrid⟩
    have := hno r hr (hid ▸ hrid)
    rw [this] at hro
    cases hro

def null_removal_doc : Document :=
  ⟨[⟨1, "T-SN-101", "GE 1.5sle", ""⟩], [], [examplePartInstance],
   [⟨1, 1, 1, "2024-01-01", some none⟩], []⟩

theorem present_null_removal_date_treated_closed_witness :
    ((install_part null_removal_doc "PI-SN-001" "T-SN-101" "2024-05-01").error = none
      ∧ (install_part null_removal_doc "PI-SN-001" "T-SN-101" "2024-05-01").saved = true)
    ∧ remove_part null_removal_doc "PI-SN-001" "2024-05-02" =
        ⟨null_removal_doc, false, some .noActiveInstallation⟩ :=
  ⟨(present_null_removal_date_treated_closed null_removal_doc "PI-SN-001" "T-SN-101"
      "2024-05-01" "2024-05-02" 1 examplePartInstance
      (by decide) (by decide) (by decide)).1
      ⟨1, "T-SN-101", "GE 1.5sle", ""⟩ (by decide),
   (present_null_removal_date_treated_closed null_removal_doc "PI-SN-001" "T-SN-101"
      "2024-05-01" "2024-05-02" 1 examplePartInstance
      (by decide) (by decide) (by decide)).2.1⟩

/-! ### Claim C1 -/

lemma open_count_install_le (doc : Document) (iid : Nat) (p t d : String)
    (h : open_count doc iid ≤ 1) :
    open_count (install_part doc p t d).doc iid ≤ 1 := by
  cases hp : get_part_by_serial doc p with
  | none => simpa [install_part, hp] using h
  | some pi =>
    cases ht : get_turbine_by_serial doc t with
    | none => simpa [install_part, hp, ht] using h
    | some tb =>
      by_cases hany : (doc.installation_history.any
          (fun r => r.instance_id == pi.instance_id && is_open r)) = true
      · simpa [install_part, hp, ht, hany] using h
      · have hanyf : (doc.installation_history.any
            (fun r => r.instance_id == pi.instance_id && is_open r)) = false :=
          Bool.eq_false_iff.mpr hany
        have hno : ∀ r ∈ doc.installation_history,
            r.instance_id = pi.instance_id → is_open r = false := by
          intro r hr hid
          rw [List.any_eq_false] at hanyf
          have hnr := hanyf r hr
          simp only [Bool.and_eq_true, beq_iff_eq, not_and] at hnr
          exact Bool.eq_false_iff.mpr (hnr hid)
        have hsucc := install_part_success doc p t d pi tb hp ht hno
        rw [hsucc]
        unfold open_count
        show ((doc.installation_history ++
            [({ installation_id :=
                  get_next_id (fun r => r.installation_id) doc.installation_history,
                instance_id := pi.instance_id, turbine_id := tb.turbine_id,
                installation_date := d, removal_date := none } : InstallationRecord)]).filter
            (fun r => r.instance_id == iid && is_open r)).length ≤ 1
        rw [List.filter_append, List.length_append]
        by_cases hid : pi.instance_id = iid
        · have hzero : doc.installation_history.filter
              (fun r => r.instance_id == iid && is_open r) = [] := by
            rw [List.filter_eq_nil_iff]
            intro r hr
            simp only [Bool.and_eq_true, beq_iff_eq, not_and]
            intro h1
            rw [hno r hr (h1.trans hid.symm)]
            simp
          rw [hzero]
          simp [hid, is_open]
        · have hfalse : (pi.instance_id == iid) = false := by
            simp [hid]
          simp only [List.filter_cons, List.filter_nil, hfalse, Bool.false_and,
            Bool.false_eq_true, if_false, List.length_nil, Nat.add_zero]
          exact h

lemma open_count_remove_le (doc : Document) (iid : Nat) (p rd : String)
    (h : open_count doc iid ≤ 1) :
    open_count (remove_part doc p rd).doc iid ≤ 1 := by
  cases hp : get_part_by_serial doc p with
  | none => simpa [remove_part, hp] using h
  | some pi =>
    cases hf : doc.installation_history.find?
        (fun r => r.instance_id == pi.instance_id && is_open r) with
    | none => simpa [remove_part, hp, hf] using h
    | some a =>
      have hdoc : (remove_part doc p rd).doc.installation_history =
          close_first_open pi.instance_id rd doc.installation_history := by
        simp [remove_part, hp, hf]
      unfold open_count
      rw [hdoc]
      exact le_trans
        (close_first_open_count_le iid pi.instance_id rd doc.installation_history) h

lemma open_count_apply_op (doc : Document) (iid : Nat) (op : Op)
    (h : open_count doc iid ≤ 1) : open_count (apply_op doc op) iid ≤ 1 := by
  cases op with
  | install p t d => exact open_count_install_le doc iid p t d h
  | remove p rd => exact open_count_remove_le doc iid p rd h

lemma open_count_apply_ops (iid : Nat) :
    ∀ (ops : List Op) (doc : Document), open_count doc iid ≤ 1 →
      open_count (apply_ops doc ops) iid ≤ 1 := by
  intro ops
  induction ops with
  | nil => intro doc h; exact h
  | cons op rest ih =>
    intro doc h
    rw [apply_ops, List.foldl_cons]
    exact ih (apply_op doc op) (open_count_apply_op doc iid op h)

/-- C1: starting from a document with no open installation record for a given
instance id, after any finite sequence of `install_part`/`remove_part` calls
(and hence at every intermediate point, each being reached by a prefix
sequence), the number of open installation records for that instance is at
most 1. -/
theorem uniqueness_of_active_installation (doc : Document) (iid : Nat)
    (h0 : open_count doc iid = 0) :
    ∀ ops : List Op, open_count (apply_ops doc ops) iid ≤ 1 :=
  fun ops => open_count_apply_ops iid ops doc (by omega)

theorem uniqueness_of_active_installation_witness :
    open_count fresh_doc 1 = 0
    ∧ open_count (apply_ops fresh_doc
        [Op.install "PI-SN-001" "T-SN-101" "2024-01-01",
         Op.install "PI-SN-001" "T-SN-101" "2024-02-01",
         Op.remove "PI-SN-001" "2024-03-01",
         Op.install "PI-SN-001" "T-SN-101" "2024-04-01"]) 1 ≤ 1 :=
  ⟨by decide,
   uniqueness_of_active_installation fresh_doc 1 (by decide)
     [Op.install "PI-SN-001" "T-SN-101" "2024-01-01",
      Op.install "PI-SN-001" "T-SN-101" "2024-02-01",
      Op.remove "PI-SN-001" "2024-03-01",
      Op.install "PI-SN-001" "T-SN-101" "2024-04-01"]⟩

end PartsTracker
